import Mathlib

/-!
Shallow embedding of `backend/crawler.py` (the my_fridge crawler pipeline):
the candidate-record data model, the five-rule validator `is_valid_video`,
dynamic query generation `get_search_queries`, the fail-soft fetch wrapper
`get_video_info`, the dedup-and-collect main loop, and the JSON emit step.
Python dict fields that may be absent are modelled as `Option`; Python sets
of strings are modelled as `Finset String` (query set) or `List String`
with membership (the mutable `crawled_ids` set); exceptions raised by the
database / extractor collaborators are modelled as `Except Unit` results.
-/

namespace Crawler

/-- Model of a raw candidate video record as produced by the extractor
(`video` dicts in `crawler.py`). A field the dict lacks is `none`;
`video.get(k)` is `.k`, and `video.get(k, d)` is `(.k).getD d`. -/
structure Video where
  id : Option String
  title : Option String
  description : Option String
  duration : Option Int
  view_count : Option Int
  categories : Option (List String)
  channel : Option String
  deriving DecidableEq

/-- Python substring test `needle in hay` on strings, over code points. -/
def containsSeq (hay needle : List Char) : Bool :=
  match hay with
  | [] => needle.isEmpty
  | _ :: t => needle.isPrefixOf hay || containsSeq t needle

/-- Python `str.lower()`, modelled as character-wise lowercasing. -/
def lowerStr (s : String) : String := ⟨s.data.map Char.toLower⟩

/-- BLACKLIST_KEYWORDS from `crawler.py`: promotional terms banned from
title + description ("광고" = ad, "협찬" = sponsorship). -/
def BLACKLIST_KEYWORDS : List String := ["광고", "협찬"]

/-- Category allowlist written inline in rule 4 of `is_valid_video`. -/
def COOKING_CATEGORIES : List String := ["cooking", "how-to & style", "food & drink"]

/-- Membership of a character in the regex class `[가-힣]` used by rule 5
(Hangul syllables, U+AC00 through U+D7A3). -/
def isKoreanChar (c : Char) : Bool := '가' ≤ c && c ≤ '힣'

/-- Translation of `is_valid_video(video)`: the five filtering rules applied
in order with short-circuit on the first failure. -/
def is_valid_video (video : Video) : Bool :=
  match video.duration with
  | none => false
  | some duration =>
  if duration < 60 then false
  else
  match video.view_count with
  | none => false
  | some view_count =>
  if view_count < 5000 then false
  else
  let combined_text := video.title.getD "" ++ " " ++ video.description.getD ""
  if BLACKLIST_KEYWORDS.any (fun k => containsSeq combined_text.data k.data) then false
  else
  let category := video.categories.getD []
  if !(category.any fun c => COOKING_CATEGORIES.contains (lowerStr c)) then false
  else
  let channel_title := video.channel.getD ""
  if !(channel_title.data.any isKoreanChar) then false
  else true

/-- Rule 1 of `is_valid_video` in isolation: duration present and not below 60. -/
def durationOk (v : Video) : Bool :=
  match v.duration with
  | none => false
  | some d => if d < 60 then false else true

/-- Rule 2 of `is_valid_video` in isolation: view count present and not below 5000. -/
def viewCountOk (v : Video) : Bool :=
  match v.view_count with
  | none => false
  | some n => if n < 5000 then false else true

/-- Rule 3 of `is_valid_video` in isolation: no blacklisted keyword occurs in
`title + " " + description`. -/
def blacklistOk (v : Video) : Bool :=
  !(BLACKLIST_KEYWORDS.any fun k =>
      containsSeq (v.title.getD "" ++ " " ++ v.description.getD "").data k.data)

/-- Rule 4 of `is_valid_video` in isolation: some lowercased category label is
in the allowlist; a missing `categories` field defaults to the empty list. -/
def categoryOk (v : Video) : Bool :=
  (v.categories.getD []).any fun c => COOKING_CATEGORIES.contains (lowerStr c)

/-- Rule 5 of `is_valid_video` in isolation: the channel name contains a
character of the Hangul syllable range. -/
def localeOk (v : Video) : Bool :=
  ((v.channel.getD "").data.any isKoreanChar)

/-- Translation of `get_search_queries(db_session)`. The vocabulary store
query `db_session.query(DishType).all()` is modelled by its outcome: either
an exception (`Except.error`) or a list of dish names. The Python function
returns `list(extended_queries)` for a set `extended_queries`; the set is
modelled as a `Finset String` since the resulting list order is unspecified. -/
def get_search_queries (vocab : Except Unit (List String)) : Finset String :=
  let base_queries : List String :=
    match vocab with
    | Except.error _ => ["한식", "중식", "양식"]
    | Except.ok dishes => dishes
  let extended_queries : Finset String :=
    base_queries.foldl (fun s q => insert (q ++ " 레시피") (insert (q ++ " 만들기") s)) ∅
  insert "간단한 요리" (insert "자취생 요리" extended_queries)

/-- Translation of `get_video_info(query, max_videos)`: the underlying
`yt_dlp` extraction is modelled by its outcome per query (`rawFetch`); any
exception is absorbed and turned into the empty list. -/
def get_video_info (rawFetch : String → Except Unit (List Video)) (query : String) :
    List Video :=
  match rawFetch query with
  | Except.error _ => []
  | Except.ok entries => entries

/-- Body of the inner collection loop of `__main__`: state is the pair
`(all_videos_to_process, crawled_ids)`; a video is appended and its id
recorded only when `video.get('id')` is truthy (present and nonempty) and
not already in `crawled_ids`. -/
def dedupStep (st : List Video × List String) (video : Video) : List Video × List String :=
  match video.id with
  | none => st
  | some vid =>
    if vid = "" then st
    else if vid ∈ st.2 then st
    else (st.1 ++ [video], vid :: st.2)

/-- Inner loop of `__main__` over the videos returned for one query. -/
def processVideos (videos : List Video) (st : List Video × List String) :
    List Video × List String :=
  videos.foldl dedupStep st

/-- Outer collection loop of `__main__` over all search queries. -/
def runCollection (fetch : String → List Video) (queries : List String)
    (st : List Video × List String) : List Video × List String :=
  queries.foldl (fun st q => processVideos (fetch q) st) st

/-- Filter phase of `__main__`: `filtered_videos`, computed from a seed set of
already-crawled ids, a query list and a fetch function. -/
def acceptedBatch (fetch : String → List Video) (queries : List String)
    (seed : List String) : List Video :=
  ((runCollection fetch queries ([], seed)).1).filter is_valid_video

/-- Model of the Emit phase (`open(output_path, 'w')` + `json.dump`).
`open(..., 'w')` creates or truncates the destination before anything is
written, and `json.dump` streams the serialization to the file object, so the
phase is modelled on a list of serialized chunks with an optional failure
point: `failAfter = some k` means an exception is raised after `k` chunks
reached the file. The result is the pair (run succeeded?, file contents at
the destination afterwards, `none` meaning no file exists). An uncaught
exception propagates out of `__main__`, hence the `false` status. -/
def emitRun (chunks : List String) (failAfter : Option Nat) : Bool × Option String :=
  match failAfter with
  | none => (true, some (String.join chunks))
  | some k => (false, some (String.join (chunks.take k)))

/-- Invariant of the collection loop for a run seeded with `seed`: the ids of
the working collection are pairwise distinct, every collected video carries a
nonempty id that is recorded in the seen set and was not in the seed, and the
seed stays inside the seen set. -/
def DedupInv (seed : List String) (st : List Video × List String) : Prop :=
  (st.1.map Video.id).Nodup ∧
  (∀ v ∈ st.1, ∃ i, v.id = some i ∧ i ≠ "" ∧ i ∈ st.2 ∧ i ∉ seed) ∧
  seed ⊆ st.2

/-- Sample record passing all five rules, used to instantiate theorems. -/
def sampleValid : Video :=
  { id := some "vid-ok", title := some "된장찌개 만들기", description := some "집밥 레시피",
    duration := some 60, view_count := some 5000,
    categories := some ["Cooking"], channel := some "김치요리TV" }

/-- Sample record with a missing duration field. -/
def sampleNoDuration : Video := { sampleValid with duration := none }

/-- Sample record one second below the duration floor. -/
def sampleShort : Video := { sampleValid with duration := some 59 }

/-- Sample record with a missing view-count field. -/
def sampleNoViews : Video := { sampleValid with view_count := none }

/-- Sample record one view below the popularity floor. -/
def sampleFewViews : Video := { sampleValid with view_count := some 4999 }

/-- Sample record with no id field. -/
def sampleNoId : Video := { sampleValid with id := none }

/-- Sample record with an empty-string id. -/
def sampleEmptyId : Video := { sampleValid with id := some "" }

/-- Sample record lacking the categories field entirely. -/
def sampleNoCats : Video := { sampleValid with categories := none }

/-- Sample fetch function: every query returns one id-less record, one
empty-id record, and one acceptable record. -/
def fetchSample : String → List Video := fun _ => [sampleNoId, sampleEmptyId, sampleValid]

/-- Sample raw-fetch outcome function that raises on query "bad". -/
def fetchFlaky : String → Except Unit (List Video) := fun q =>
  if q = "bad" then Except.error () else Except.ok [sampleValid]

theorem is_valid_video_eq_rules (v : Video) :
    is_valid_video v =
      (durationOk v && viewCountOk v && blacklistOk v && categoryOk v && localeOk v) := by
  unfold is_valid_video durationOk viewCountOk blacklistOk categoryOk localeOk
  cases v.duration with
  | none => rfl
  | some d =>
    cases v.view_count with
    | none => by_cases h : d < 60 <;> simp [h]
    | some n =>
      by_cases h1 : d < 60 <;> by_cases h2 : n < 5000 <;> simp only [h1, h2, if_true, if_false]
      · simp
      · simp
      · simp
      · cases hb : List.any BLACKLIST_KEYWORDS
            (fun k => containsSeq ((v.title.getD "" ++ " ") ++ v.description.getD "").data k.data) <;>
          cases hc : List.any (v.categories.getD [])
              (fun c => List.contains COOKING_CATEGORIES (lowerStr c)) <;>
            cases hl : List.any (v.channel.getD "").data isKoreanChar <;>
              simp [hb, hc, hl]

theorem durationOk_iff (v : Video) :
    durationOk v = true ↔ ∃ d, v.duration = some d ∧ 60 ≤ d := by
  unfold durationOk
  cases v.duration with
  | none => simp
  | some d => by_cases h : d < 60 <;> simp [h] <;> omega

theorem viewCountOk_iff (v : Video) :
    viewCountOk v = true ↔ ∃ n, v.view_count = some n ∧ 5000 ≤ n := by
  unfold viewCountOk
  cases v.view_count with
  | none => simp
  | some n => by_cases h : n < 5000 <;> simp [h] <;> omega

theorem blacklistOk_iff (v : Video) :
    blacklistOk v = true ↔
      ∀ k ∈ BLACKLIST_KEYWORDS,
        containsSeq (v.title.getD "" ++ " " ++ v.description.getD "").data k.data = false := by
  unfold blacklistOk
  simp

theorem lowerStr_fixed_on_allowlist : ∀ a ∈ COOKING_CATEGORIES, lowerStr a = a := by decide

theorem categoryOk_iff (v : Video) :
    categoryOk v = true ↔
      ∃ c ∈ v.categories.getD [], ∃ a ∈ COOKING_CATEGORIES, lowerStr c = lowerStr a := by
  unfold categoryOk
  simp only [List.any_eq_true]
  constructor
  · rintro ⟨c, hc, hmem⟩
    have hm : lowerStr c ∈ COOKING_CATEGORIES := by simpa using hmem
    exact ⟨c, hc, lowerStr c, hm, (lowerStr_fixed_on_allowlist _ hm).symm⟩
  · rintro ⟨c, hc, a, ha, heq⟩
    refine ⟨c, hc, ?_⟩
    have hm : lowerStr c ∈ COOKING_CATEGORIES := by
      rw [heq, lowerStr_fixed_on_allowlist a ha]; exact ha
    simpa using hm

theorem localeOk_iff (v : Video) :
    localeOk v = true ↔ ∃ c ∈ (v.channel.getD "").data, '가' ≤ c ∧ c ≤ '힣' := by
  unfold localeOk isKoreanChar
  simp

/-- C1: `is_valid_video` returns true exactly when all five rules hold: the
duration is present and at least 60 seconds, the view count is present and at
least 5000, the space-joined title and description contain no blacklisted
substring, some category label matches the allowlist case-insensitively, and
the channel name has a character in the Hangul-syllable range. -/
theorem C1_validator_iff (v : Video) :
    is_valid_video v = true ↔
      ((∃ d, v.duration = some d ∧ 60 ≤ d) ∧
       (∃ n, v.view_count = some n ∧ 5000 ≤ n) ∧
       (∀ k ∈ BLACKLIST_KEYWORDS,
          containsSeq (v.title.getD "" ++ " " ++ v.description.getD "").data k.data = false) ∧
       (∃ c ∈ v.categories.getD [], ∃ a ∈ COOKING_CATEGORIES, lowerStr c = lowerStr a) ∧
       (∃ c ∈ (v.channel.getD "").data, '가' ≤ c ∧ c ≤ '힣')) := by
  rw [is_valid_video_eq_rules]
  simp only [Bool.and_eq_true]
  rw [durationOk_iff, viewCountOk_iff, blacklistOk_iff, categoryOk_iff, localeOk_iff]
  tauto

/-- Witness for C1: the sample record satisfies the five spec-side rules, so
the validator accepts it. -/
theorem C1_validator_iff_witness : is_valid_video sampleValid = true :=
  (C1_validator_iff sampleValid).mpr
    ⟨⟨60, rfl, by decide⟩, ⟨5000, rfl, by decide⟩, by decide, by decide, by decide⟩

theorem dedupStep_seen_mono (st : List Video × List String) (v : Video) :
    st.2 ⊆ (dedupStep st v).2 := by
  unfold dedupStep
  cases v.id with
  | none => exact fun a ha => ha
  | some vid =>
    by_cases h1 : vid = ""
    · simp [h1]
    · by_cases h2 : vid ∈ st.2
      · simp [h1, h2]
      · simp only [h1, h2, if_false, if_neg, not_false_iff]
        exact List.subset_cons_self _ _

theorem processVideos_seen_mono (videos : List Video) (st : List Video × List String) :
    st.2 ⊆ (processVideos videos st).2 := by
  induction videos generalizing st with
  | nil => exact fun a ha => ha
  | cons v vs ih =>
    exact fun a ha => ih (dedupStep st v) (dedupStep_seen_mono st v ha)

theorem dedupStep_inv (seed : List String) (st : List Video × List String) (v : Video)
    (h : DedupInv seed st) : DedupInv seed (dedupStep st v) := by
  obtain ⟨hnd, hmem, hseed⟩ := h
  unfold dedupStep
  cases hv : v.id with
  | none => exact ⟨hnd, hmem, hseed⟩
  | some vid =>
    by_cases h1 : vid = ""
    · simp only [h1, if_true, if_pos]
      exact ⟨hnd, hmem, hseed⟩
    · by_cases h2 : vid ∈ st.2
      · simp only [h1, h2, if_false, if_true, if_pos, if_neg, not_false_iff]
        exact ⟨hnd, hmem, hseed⟩
      · simp only [h1, h2, if_false, if_neg, not_false_iff]
        refine ⟨?_, ?_, ?_⟩
        · rw [List.map_append]
          simp only [List.map_cons, List.map_nil]
          rw [List.nodup_append]
          refine ⟨hnd, List.nodup_singleton _, ?_⟩
          intro x hx hx1
          obtain ⟨w, hw, hwid⟩ := List.mem_map.1 hx
          simp only [List.mem_singleton] at hx1
          obtain ⟨i, hwi, _, hiseen, _⟩ := hmem w hw
          rw [hwi] at hwid
          rw [hx1, hv] at hwid
          exact h2 (Option.some.inj hwid ▸ hiseen)
        · intro w hw
          rcases List.mem_append.1 hw with hmem' | hsing
          · obtain ⟨i, hi1, hi2, hi3, hi4⟩ := hmem w hmem'
            exact ⟨i, hi1, hi2, List.mem_cons_of_mem _ hi3, hi4⟩
          · have hwv : w = v := by simpa using hsing
            subst hwv
            exact ⟨vid, hv, h1, List.mem_cons_self _ _, fun hc => h2 (hseed hc)⟩
        · exact fun a ha => List.mem_cons_of_mem _ (hseed ha)

theorem processVideos_inv (seed : List String) (videos : List Video)
    (st : List Video × List String) (h : DedupInv seed st) :
    DedupInv seed (processVideos videos st) := by
  induction videos generalizing st with
  | nil => exact h
  | cons v vs ih => exact ih _ (dedupStep_inv seed st v h)

theorem runCollection_eq_processVideos (fetch : String → List Video) (queries : List String)
    (st : List Video × List String) :
    runCollection fetch queries st = processVideos ((queries.map fetch).flatten) st := by
  induction queries generalizing st with
  | nil => rfl
  | cons q qs ih =>
    show runCollection fetch qs (processVideos (fetch q) st) = _
    rw [ih]
    unfold processVideos
    rw [List.map_cons, List.flatten_cons, List.foldl_append]

theorem runCollection_inv (fetch : String → List Video) (queries : List String)
    (seed : List String) : DedupInv seed (runCollection fetch queries ([], seed)) := by
  rw [runCollection_eq_processVideos]
  refine processVideos_inv seed _ _ ⟨List.nodup_nil, ?_, fun a ha => ha⟩
  intro v hv
  cases hv

theorem processVideos_ids_recorded (videos : List Video) (st : List Video × List String) :
    ∀ v ∈ videos, ∀ i, v.id = some i → i ≠ "" → i ∈ (processVideos videos st).2 := by
  induction videos generalizing st with
  | nil =>
    intro v hv
    cases hv
  | cons w ws ih =>
    intro v hv i hi hne
    rcases List.mem_cons.1 hv with hvw | hv'
    · subst hvw
      apply processVideos_seen_mono ws (dedupStep st v)
      unfold dedupStep
      rw [hi]
      by_cases h2 : i ∈ st.2
      · simp only [hne, h2, if_false, if_true, if_pos, if_neg, not_false_iff]
      · simp only [hne, h2, if_false, if_neg, not_false_iff]
        exact List.mem_cons_self _ _
    · exact ih (dedupStep st w) v hv' i hi hne

theorem processVideos_stationary (videos : List Video) (st : List Video × List String)
    (h : ∀ v ∈ videos, ∀ i, v.id = some i → i ≠ "" → i ∈ st.2) :
    processVideos videos st = st := by
  induction videos with
  | nil => rfl
  | cons v vs ih =>
    have hstep : dedupStep st v = st := by
      unfold dedupStep
      cases hv : v.id with
      | none => rfl
      | some vid =>
        by_cases h1 : vid = ""
        · simp [h1]
        · have hvin := h v (List.mem_cons_self _ _) vid hv h1
          simp [h1, hvin]
    show processVideos vs (dedupStep st v) = st
    rw [hstep]
    exact ih fun w hw => h w (List.mem_cons_of_mem _ hw)

theorem dedupStep_seen_source (st : List Video × List String) (v : Video) :
    ∀ i ∈ (dedupStep st v).2, i ∈ st.2 ∨ i ≠ "" := by
  unfold dedupStep
  cases v.id with
  | none => exact fun i hi => Or.inl hi
  | some vid =>
    by_cases h1 : vid = ""
    · simp only [h1, if_true, if_pos]
      exact fun i hi => Or.inl hi
    · by_cases h2 : vid ∈ st.2
      · simp only [h1, h2, if_false, if_true, if_pos, if_neg, not_false_iff]
        exact fun i hi => Or.inl hi
      · simp only [h1, h2, if_false, if_neg, not_false_iff]
        intro i hi
        rcases List.mem_cons.1 hi with hvi | hi'
        · exact Or.inr (hvi ▸ h1)
        · exact Or.inl hi'

theorem processVideos_seen_source (videos : List Video) (st : List Video × List String) :
    ∀ i ∈ (processVideos videos st).2, i ∈ st.2 ∨ i ≠ "" := by
  induction videos generalizing st with
  | nil => exact fun i hi => Or.inl hi
  | cons v vs ih =>
    intro i hi
    rcases ih (dedupStep st v) i hi with hcase | hcase
    · exact dedupStep_seen_source st v i hcase
    · exact Or.inr hcase

/-- C2: in every run, the accepted batch contains no identifier twice, and no
identifier of the accepted batch was already in the seed seen-id set loaded
at run start. -/
theorem C2_dedup_invariant (fetch : String → List Video) (queries : List String)
    (seed : List String) :
    ((acceptedBatch fetch queries seed).map Video.id).Nodup ∧
    ∀ v ∈ acceptedBatch fetch queries seed, ∀ i, v.id = some i → i ∉ seed := by
  obtain ⟨hnd, hmem, _⟩ := runCollection_inv fetch queries seed
  constructor
  · have hsub : List.Sublist (acceptedBatch fetch queries seed)
        (runCollection fetch queries ([], seed)).1 := List.filter_sublist _
    exact List.Sublist.nodup (List.Sublist.map Video.id hsub) hnd
  · intro v hv i hi
    have hv' : v ∈ (runCollection fetch queries ([], seed)).1 := List.mem_of_mem_filter hv
    obtain ⟨j, hj, _, _, hjseed⟩ := hmem v hv'
    rw [hi] at hj
    exact (Option.some.inj hj) ▸ hjseed

/-- Witness for C2: a concrete run whose batch has pairwise distinct ids, and
whose accepted id "vid-ok" was not in the seed set. -/
theorem C2_dedup_invariant_witness :
    ((acceptedBatch fetchSample ["q"] ["old-id"]).map Video.id).Nodup ∧
    ("vid-ok" : String) ∉ (["old-id"] : List String) :=
  ⟨(C2_dedup_invariant fetchSample ["q"] ["old-id"]).1,
   (C2_dedup_invariant fetchSample ["q"] ["old-id"]).2 sampleValid (by decide) "vid-ok" rfl⟩

/-- C8: running the collection phase a second time with identical fetch
responses, seeding it with the seen-id set left by the first pass, collects
nothing, so the second accepted batch is empty. -/
theorem C8_second_run_empty (fetch : String → List Video) (queries : List String)
    (seed : List String) :
    (runCollection fetch queries
        ([], (runCollection fetch queries ([], seed)).2)).1 = [] := by
  rw [runCollection_eq_processVideos, runCollection_eq_processVideos]
  have h : ∀ v ∈ (queries.map fetch).flatten, ∀ i, v.id = some i → i ≠ "" →
      i ∈ (([] : List Video),
            (processVideos ((queries.map fetch).flatten) ([], seed)).2).2 :=
    fun v hv i hi hne => processVideos_ids_recorded _ ([], seed) v hv i hi hne
  rw [processVideos_stationary _ _ h]

/-- C9: a candidate with an absent or empty id is never collected, never
recorded in the seen-id set, and never reaches the accepted batch. -/
theorem C9_missing_ids_skipped (fetch : String → List Video) (queries : List String)
    (seed : List String) :
    (∀ v ∈ (runCollection fetch queries ([], seed)).1, ∃ i, v.id = some i ∧ i ≠ "") ∧
    (∀ i ∈ (runCollection fetch queries ([], seed)).2, i ∈ seed ∨ i ≠ "") ∧
    (∀ v ∈ acceptedBatch fetch queries seed, ∃ i, v.id = some i ∧ i ≠ "") := by
  obtain ⟨_, hmem, _⟩ := runCollection_inv fetch queries seed
  refine ⟨?_, ?_, ?_⟩
  · intro v hv
    obtain ⟨i, hi1, hi2, _, _⟩ := hmem v hv
    exact ⟨i, hi1, hi2⟩
  · rw [runCollection_eq_processVideos]
    exact processVideos_seen_source _ _
  · intro v hv
    obtain ⟨i, hi1, hi2, _, _⟩ := hmem v (List.mem_of_mem_filter hv)
    exact ⟨i, hi1, hi2⟩

/-- Witness for C9: in a concrete run over records with a missing id, an
empty id and a proper id, the collected record has a nonempty id. -/
theorem C9_missing_ids_skipped_witness : ∃ i, sampleValid.id = some i ∧ i ≠ "" :=
  (C9_missing_ids_skipped fetchSample ["q"] []).1 sampleValid (by decide)

theorem runCollection_filter_queries (fetch : String → List Video) (p : String → Bool)
    (queries : List String) (st : List Video × List String)
    (h : ∀ q, p q = false → fetch q = []) :
    runCollection fetch (queries.filter p) st = runCollection fetch queries st := by
  induction queries generalizing st with
  | nil => rfl
  | cons q qs ih =>
    cases hp : p q with
    | false =>
      rw [List.filter_cons_of_neg (by simp [hp])]
      rw [ih st]
      show runCollection fetch qs st = runCollection fetch qs (processVideos (fetch q) st)
      rw [h q hp]
      rfl
    | true =>
      rw [List.filter_cons_of_pos (by simp [hp])]
      show runCollection fetch (qs.filter p) (processVideos (fetch q) st) = _
      exact ih (processVideos (fetch q) st)

/-- C6: a query whose underlying extraction raises yields the empty list
instead of an exception, and the accepted batch of the whole run equals the
accepted batch computed from the non-failing queries alone. -/
theorem C6_fetch_failure_isolated (rawFetch : String → Except Unit (List Video))
    (queries : List String) (seed : List String) :
    (∀ q e, rawFetch q = Except.error e → get_video_info rawFetch q = []) ∧
    acceptedBatch (get_video_info rawFetch) queries seed =
      acceptedBatch (get_video_info rawFetch)
        (queries.filter fun q => (rawFetch q).isOk) seed := by
  constructor
  · intro q e he
    unfold get_video_info
    rw [he]
  · have h : ∀ q, ((rawFetch q).isOk : Bool) = false → get_video_info rawFetch q = [] := by
      intro q hq
      unfold get_video_info
      cases hr : rawFetch q with
      | error e => rfl
      | ok entries =>
        rw [hr] at hq
        simp [Except.isOk, Except.toBool] at hq
    unfold acceptedBatch
    rw [runCollection_filter_queries _ _ _ _ h]

/-- Witness for C6: the flaky fetch raises on query "bad" and the wrapper
turns that into the empty list. -/
theorem C6_fetch_failure_isolated_witness : get_video_info fetchFlaky "bad" = [] :=
  (C6_fetch_failure_isolated fetchFlaky ["bad", "good"] []).1 "bad" () rfl

/-- Counterexample to C3 as stated: when the vocabulary source succeeds but
returns the empty vocabulary, no fallback substitution happens, so the
fallback-derived query "한식 레시피" is absent from the result. -/
theorem C3_counterexample_empty_vocab :
    ¬ ("한식 레시피" ∈ get_search_queries (Except.ok [])) := by decide

/-- C3 (amended): only when the vocabulary source fails does
`get_search_queries` substitute the three-term fallback vocabulary, in which
case the result is exactly the six suffix-derived queries plus the two fixed
standalone queries; a successful but empty vocabulary is kept as-is and
yields only the two fixed standalone queries. -/
theorem C3_fallback_queries :
    get_search_queries (Except.error ()) =
      ({"한식 레시피", "한식 만들기", "중식 레시피", "중식 만들기", "양식 레시피",
        "양식 만들기", "간단한 요리", "자취생 요리"} : Finset String) ∧
    get_search_queries (Except.ok []) =
      ({"간단한 요리", "자취생 요리"} : Finset String) := by
  constructor
  · decide
  · decide

/-- C4: a record with an absent duration or a duration below 60 is rejected,
and a record with duration exactly 60 that passes the other four rules is
accepted. -/
theorem C4_duration_rule :
    (∀ v : Video, (v.duration = none ∨ ∃ d, v.duration = some d ∧ d < 60) →
        is_valid_video v = false) ∧
    (∀ v : Video, v.duration = some 60 → viewCountOk v = true → blacklistOk v = true →
        categoryOk v = true → localeOk v = true → is_valid_video v = true) := by
  constructor
  · intro v hv
    rw [is_valid_video_eq_rules]
    have hdur : durationOk v = false := by
      unfold durationOk
      rcases hv with h | ⟨d, hd, hlt⟩
      · rw [h]
      · rw [hd]
        simp [hlt]
    simp [hdur]
  · intro v hd h2 h3 h4 h5
    rw [is_valid_video_eq_rules]
    have h1 : durationOk v = true := by
      unfold durationOk
      rw [hd]
      simp
    simp [h1, h2, h3, h4, h5]

/-- Witness for C4: a record without duration and one with duration 59 are
rejected; the sample record with duration exactly 60 is accepted. -/
theorem C4_duration_rule_witness :
    is_valid_video sampleNoDuration = false ∧ is_valid_video sampleShort = false ∧
    is_valid_video sampleValid = true :=
  ⟨C4_duration_rule.1 sampleNoDuration (Or.inl rfl),
   C4_duration_rule.1 sampleShort (Or.inr ⟨59, rfl, by decide⟩),
   C4_duration_rule.2 sampleValid rfl (by decide) (by decide) (by decide) (by decide)⟩

/-- C5: a record with an absent view count or a view count below 5000 is
rejected, and a record with view count exactly 5000 that passes the other
four rules is accepted. -/
theorem C5_view_count_rule :
    (∀ v : Video, (v.view_count = none ∨ ∃ n, v.view_count = some n ∧ n < 5000) →
        is_valid_video v = false) ∧
    (∀ v : Video, v.view_count = some 5000 → durationOk v = true → blacklistOk v = true →
        categoryOk v = true → localeOk v = true → is_valid_video v = true) := by
  constructor
  · intro v hv
    rw [is_valid_video_eq_rules]
    have hvc : viewCountOk v = false := by
      unfold viewCountOk
      rcases hv with h | ⟨n, hn, hlt⟩
      · rw [h]
      · rw [hn]
        simp [hlt]
    simp [hvc]
  · intro v hn h1 h3 h4 h5
    rw [is_valid_video_eq_rules]
    have h2 : viewCountOk v = true := by
      unfold viewCountOk
      rw [hn]
      simp
    simp [h1, h2, h3, h4, h5]

/-- Witness for C5: a record without view count and one with 4999 views are
rejected; the sample record with exactly 5000 views is accepted. -/
theorem C5_view_count_rule_witness :
    is_valid_video sampleNoViews = false ∧ is_valid_video sampleFewViews = false ∧
    is_valid_video sampleValid = true :=
  ⟨C5_view_count_rule.1 sampleNoViews (Or.inl rfl),
   C5_view_count_rule.1 sampleFewViews (Or.inr ⟨4999, rfl, by decide⟩),
   C5_view_count_rule.2 sampleValid rfl (by decide) (by decide) (by decide) (by decide)⟩

theorem stringJoin_append (l1 l2 : List String) :
    String.join (l1 ++ l2) = String.join l1 ++ String.join l2 := by
  simp only [String.join_eq, List.map_append, List.flatten_append]
  rfl

/-- Counterexample to C7 as stated: the Emit phase opens the destination in
truncating write mode and streams the serialization, so a failure after the
first of two chunks leaves a file that is neither absent nor the full
serialization. -/
theorem C7_counterexample_truncated_file :
    ¬ ((emitRun ["[", "]"] (some 1)).1 = false →
        (emitRun ["[", "]"] (some 1)).2 = none ∨
        (emitRun ["[", "]"] (some 1)).2 = some (String.join ["[", "]"])) := by
  decide

/-- C7 (amended): when the Emit phase cannot write the final batch the run
does terminate with a failure status (the exception is uncaught), and on
success the destination holds the full serialization; but a mid-write
failure leaves the destination holding exactly the already-written chunks, a
prefix of the full serialization, so an incomplete file can remain. -/
theorem C7_emit_failure_surfaced (chunks : List String) (k : Nat) :
    (emitRun chunks (some k)).1 = false ∧
    emitRun chunks none = (true, some (String.join chunks)) ∧
    (emitRun chunks (some k)).2 = some (String.join (chunks.take k)) ∧
    String.join chunks = String.join (chunks.take k) ++ String.join (chunks.drop k) := by
  refine ⟨rfl, rfl, rfl, ?_⟩
  conv_lhs => rw [← List.take_append_drop k chunks]
  rw [stringJoin_append]

/-- C10: a record lacking the categories field entirely is validated exactly
like one with an empty category list, and is rejected. -/
theorem C10_missing_categories (v : Video) (h : v.categories = none) :
    is_valid_video v = is_valid_video { v with categories := some [] } ∧
    is_valid_video v = false := by
  have hcat : categoryOk v = false := by
    unfold categoryOk
    rw [h]
    rfl
  have hcat' : categoryOk { v with categories := some [] } = false := by
    unfold categoryOk
    rfl
  constructor
  · rw [is_valid_video_eq_rules, is_valid_video_eq_rules, hcat, hcat']
    rfl
  · rw [is_valid_video_eq_rules, hcat]
    simp

/-- Witness for C10: the sample record without a categories field is rejected
and validates like its empty-category variant. -/
theorem C10_missing_categories_witness :
    is_valid_video sampleNoCats =
      is_valid_video { sampleNoCats with categories := some [] } ∧
    is_valid_video sampleNoCats = false :=
  C10_missing_categories sampleNoCats rfl

end Crawler
